import Mathlib

/-!
# Verification of the qp_shotgun qc_filter module

This file gives a shallow embedding of `qp_shotgun/qc_filter/qc_filter.py`
and proves properties of the embedded functions.

Python data is embedded as follows: `str` becomes `String`; Python lists
become `List`; the `dict` returned by the external
`qiita_client.util.get_sample_names_by_run_prefix` (which reads the mapping
file; it lives in the external `qiita_client` package, not in this
repository) is embedded as an ordered association list
`List (String × String)` whose order is the dict's iteration order and whose
keys are the run prefixes; exceptions become `Except String`; the external
`system_call`, `os.path.exists` and `os.environ` effects become explicit
oracle arguments (`String → SysResult`, `String → Bool`, `Option String`).
-/

namespace QcFilter

/-- Python `str.startswith(pre)` on the character sequence of the string. -/
def startswith (s pre : String) : Bool :=
  pre.data.isPrefixOf s.data

/-- Python `str.endswith(suf)`. -/
def endswith (s suf : String) : Bool :=
  suf.data.isSuffixOf s.data

/-- Embeds `os.path.basename` for POSIX paths: everything after the last slash.
The fold resets the accumulator at each `/`, leaving the final component. -/
def basename (p : String) : String :=
  ⟨p.data.foldl (fun acc c => if c = '/' then [] else acc ++ [c]) []⟩

/-- Embeds `os.path.join` for two POSIX path components. -/
def pathJoin (a b : String) : String :=
  if startswith b "/" then b
  else if a = "" then b
  else if endswith a "/" then a ++ b
  else a ++ "/" ++ b

/-- Python `', '.join(xs)`. -/
def joinComma (xs : List String) : String :=
  String.intercalate ", " xs

/-- Lexicographic (code-point) comparison of character sequences: the order
Python uses to compare `str` values. -/
def charListLe : List Char → List Char → Bool
  | [], _ => true
  | _ :: _, [] => false
  | a :: as, b :: bs => if a < b then true else if b < a then false else charListLe as bs

/-- Python `a <= b` on strings, as a proposition. -/
def strLe (a b : String) : Prop := charListLe a.data b.data = true

instance : DecidableRel strLe := fun a b => instDecidableEqBool (charListLe a.data b.data) true

/-- Python `list.sort()` on strings: stable sort in lexicographic order. -/
def sortStr (l : List String) : List String :=
  l.insertionSort strLe

instance {ε α : Type} [DecidableEq ε] [DecidableEq α] : DecidableEq (Except ε α) := fun x y =>
  match x, y with
  | .ok a, .ok b =>
    if h : a = b then isTrue (by rw [h]) else isFalse (fun hh => by cases hh; exact h rfl)
  | .error a, .error b =>
    if h : a = b then isTrue (by rw [h]) else isFalse (fun hh => by cases hh; exact h rfl)
  | .ok _, .error _ => isFalse (fun hh => by cases hh)
  | .error _, .ok _ => isFalse (fun hh => by cases hh)

/-- Python dict lookup `d[k]` on an association list, for call sites where
the key is known to be present (result defaults to `""`, never reached). -/
def lookupD (d : List (String × String)) (k : String) : String :=
  (List.lookup k d).getD ""

/-- One element of the `samples` list built by `make_read_pairs_per_sample`:
the Python 4-tuple `(run_prefix, sample_name, fwd read fp, rev read fp)`.
The first component is named `run_pref` here. -/
structure Sample where
  run_pref : String
  sample_name : String
  fwd_fp : String
  rev_fp : Option String
deriving Repr, DecidableEq

/-- Embeds `itertools.zip_longest` with `fillvalue=None`. -/
def zipLongest : List String → List String → List (Option String × Option String)
  | [], ys => ys.map (fun y => (none, some y))
  | x :: xs, [] => (some x, none) :: zipLongest xs []
  | x :: xs, y :: ys => (some x, some y) :: zipLongest xs ys

/-- The inner loop of `make_read_pairs_per_sample` (lines 83-89): iterate
over the run prefixes with accumulator `run_prefix` (initially `None`);
a match when the accumulator is already set raises `ValueError`. -/
def findRunPrefGo (fwd_fn : String) : List String → Option String → Except String (Option String)
  | [], acc => .ok acc
  | rp :: rest, acc =>
    if startswith fwd_fn rp then
      match acc with
      | none => findRunPrefGo fwd_fn rest (some rp)
      | some _ => .error ("Multiple run prefixes match this fwd read: " ++ fwd_fn)
    else
      findRunPrefGo fwd_fn rest acc

/-- The run-prefix scan for one forward filename over the index keys. -/
def findRunPref (keys : List String) (fwd_fn : String) : Except String (Option String) :=
  findRunPrefGo fwd_fn keys none

/-- The keys of the index dict, in iteration order: `for rp in sn_by_rp`. -/
def keysOf (sn_by_rp : List (String × String)) : List String :=
  sn_by_rp.map Prod.fst

/-- The body of the `for i, (fwd_fp, rev_fp) in enumerate(zip_longest(...))`
loop of `make_read_pairs_per_sample` (lines 77-115), with the mutable
`used_prefixes` set and `samples` accumulator made explicit.  A `none`
forward path (impossible after the length check) is Python's `TypeError`
from `basename(None)`. -/
def pairLoop (sn_by_rp : List (String × String)) (used : List String) :
    List (Option String × Option String) → Except String (List Sample)
  | [] => .ok []
  | (fwdO, revO) :: rest =>
    match fwdO with
    | none => .error "TypeError: expected str, bytes or os.PathLike object, not NoneType"
    | some fwd_fp =>
      match findRunPref (keysOf sn_by_rp) (basename fwd_fp) with
      | .error e => .error e
      | .ok none => .error ("No run prefix matching this fwd read: " ++ basename fwd_fp)
      | .ok (some rp) =>
        if rp ∈ used then
          .error ("This run prefix matches multiple fwd reads: " ++ rp)
        else
          match revO with
          | none =>
            (pairLoop sn_by_rp (rp :: used) rest).map
              (fun ss => ⟨rp, lookupD sn_by_rp rp, fwd_fp, none⟩ :: ss)
          | some rev_fp =>
            if startswith (basename rev_fp) rp then
              (pairLoop sn_by_rp (rp :: used) rest).map
                (fun ss => ⟨rp, lookupD sn_by_rp rp, fwd_fp, some rev_fp⟩ :: ss)
            else
              .error ("Reverse read does not match this run prefix.\nRun prefix: " ++ rp ++
                "\nForward read: " ++ basename fwd_fp ++ "\nReverse read: " ++
                basename rev_fp ++ "\n")

/-- Embeds `make_read_pairs_per_sample(forward_seqs, reverse_seqs, map_file)`
(lines 28-117).  The index `sn_by_rp` stands for
`get_sample_names_by_run_prefix(map_file)` (external to this repository). -/
def make_read_pairs_per_sample (forward_seqs reverse_seqs : List String)
    (sn_by_rp : List (String × String)) : Except String (List Sample) :=
  let forward := sortStr forward_seqs
  if reverse_seqs ≠ [] ∧ forward.length ≠ reverse_seqs.length then
    .error ("Your reverse and forward files are of different length. Forward: " ++
      joinComma forward ++ ". Reverse: " ++ joinComma reverse_seqs ++ ".")
  else
    let reverse := if reverse_seqs.isEmpty then reverse_seqs else sortStr reverse_seqs
    pairLoop sn_by_rp [] (zipLongest forward reverse)

/-- The module-level `BOWTIE2_PARAMS` dict (lines 20-22), in source order:
short option name to long parameter name. -/
def BOWTIE2_PARAMS : List (String × String) :=
  [("x", "Bowtie2 database to filter"), ("p", "Number of threads to be used")]

/-- The module-level `DATABASE_PREFIX` dict (lines 24-25). -/
def DATABASE_PREFIX_MAP : List (String × String) :=
  [("Human", "Human/phix")]

/-- The loop body of `_format_qc_filter_params` (lines 123-140), over the
sorted short option names.  `env` is `os.environ` restricted to
`QC_FILTER_DB_DP` (`none` = variable unset, access raises `KeyError`).
Python's `value is 'True'` identity tests on interned literals are embedded
as string equality.  A long parameter name absent from `parameters` raises
`KeyError` (`parameters[parameter]`), as does a database name absent from
`DATABASE_PREFIX`. -/
def formatParamsGo (env : Option String) (parameters : List (String × String)) :
    List String → Except String (List String)
  | [] => .ok []
  | param :: rest =>
    let parameter := lookupD BOWTIE2_PARAMS param
    match List.lookup parameter parameters with
    | none => .error ("KeyError: " ++ parameter)
    | some value =>
      let dash := if param.length = 1 then "-" else "--"
      if value = "True" then
        (formatParamsGo env parameters rest).map (fun ps => (dash ++ param) :: ps)
      else if value = "False" then
        formatParamsGo env parameters rest
      else if value ≠ "" ∧ value ≠ "default" then
        if param = "x" then
          match env with
          | none => .error "KeyError: QC_FILTER_DB_DP"
          | some db_path =>
            match List.lookup value DATABASE_PREFIX_MAP with
            | none => .error ("KeyError: " ++ value)
            | some dbv =>
              (formatParamsGo env parameters rest).map
                (fun ps => (dash ++ param ++ " " ++ pathJoin db_path dbv) :: ps)
        else
          (formatParamsGo env parameters rest).map
            (fun ps => (dash ++ param ++ " " ++ value) :: ps)
      else
        formatParamsGo env parameters rest

/-- Embeds `_format_qc_filter_params(parameters)` (lines 120-144): loop over
`sorted(BOWTIE2_PARAMS)` and join the collected flags with spaces. -/
def format_qc_filter_params (env : Option String)
    (parameters : List (String × String)) : Except String String :=
  (formatParamsGo env parameters (sortStr (BOWTIE2_PARAMS.map Prod.fst))).map
    (String.intercalate " ")

/-- Python `'%s' % v` for an optional value: `None` renders as `"None"`. -/
def optStr : Option String → String
  | none => "None"
  | some s => s

/-- The command string built for one sample by the loop of
`generate_qc_filter_commands` (lines 186-214), with the format string's
substitutions spelled out. -/
def buildCommand (param_string threads out_dir temp_dir : String) (s : Sample) : String :=
  "bowtie2 " ++ param_string ++ " --very-sensitive -1 " ++ s.fwd_fp ++ " -2 " ++
    optStr s.rev_fp ++ " | samtools view -f 12 -F 256 -b -o " ++
    pathJoin temp_dir (s.sample_name ++ ".unsorted.bam") ++ ";" ++
  "samtools sort -T " ++ pathJoin temp_dir s.sample_name ++ " -@ " ++ threads ++
    " -n -o " ++ pathJoin temp_dir (s.sample_name ++ ".bam") ++ " " ++
    pathJoin temp_dir (s.sample_name ++ ".unsorted.bam") ++ ";" ++
  "bedtools bamtofastq -i " ++ pathJoin temp_dir (s.sample_name ++ ".bam") ++
    " -fq " ++ pathJoin temp_dir (s.sample_name ++ ".R1.trimmed.filtered.fastq") ++
    " -fq2 " ++ pathJoin temp_dir (s.sample_name ++ ".R2.trimmed.filtered.fastq") ++ ";" ++
  "pigz -p " ++ threads ++ " -c " ++
    pathJoin temp_dir (s.sample_name ++ ".R1.trimmed.filtered.fastq") ++ " > " ++
    pathJoin out_dir (s.sample_name ++ ".R1.trimmed.filtered.fastq.gz") ++ ";" ++
  "pigz -p " ++ threads ++ " -c " ++
    pathJoin temp_dir (s.sample_name ++ ".R2.trimmed.filtered.fastq") ++ " > " ++
    pathJoin out_dir (s.sample_name ++ ".R2.trimmed.filtered.fastq.gz")

/-- Embeds `generate_qc_filter_commands(forward_seqs, reverse_seqs, map_file,
out_dir, temp_dir, parameters)` (lines 147-216).  The `cmds` list is built
by appending inside the `for` loop, embedded as a left fold. -/
def generate_qc_filter_commands (env : Option String)
    (forward_seqs reverse_seqs : List String) (sn_by_rp : List (String × String))
    (out_dir temp_dir : String) (parameters : List (String × String)) :
    Except String (List String × List Sample) :=
  match make_read_pairs_per_sample forward_seqs reverse_seqs sn_by_rp with
  | .error e => .error e
  | .ok samples =>
    match format_qc_filter_params env parameters with
    | .error e => .error e
    | .ok param_string =>
      match List.lookup "Number of threads to be used" parameters with
      | none => .error "KeyError: Number of threads to be used"
      | some threads =>
        .ok (samples.foldl
              (fun cmds s => cmds ++ [buildCommand param_string threads out_dir temp_dir s])
              [],
             samples)

/-- The `(std_out, std_err, return_value)` triple of the external
`qiita_client.util.system_call`. -/
structure SysResult where
  std_out : String
  std_err : String
  return_value : Int
deriving Repr, DecidableEq

/-- The error message assembled by `_run_commands` (lines 224-226). -/
def errorMsgFor (std_out std_err cmd : String) : String :=
  "Error running QC_Filter:\nStd out: " ++ std_out ++ "\nStd err: " ++ std_err ++
    "\n\nCommand run was:\n" ++ cmd

/-- Substitute the first `%d` in a character sequence by the decimal
rendering of `i`. -/
def pctSubst (i : Nat) : List Char → List Char
  | [] => []
  | '%' :: 'd' :: rest => (toString i).data ++ rest
  | c :: rest => c :: pctSubst i rest

/-- Python `msg % i` for the single `%d` placeholder of the step templates. -/
def pctFormat (msg : String) (i : Nat) : String :=
  ⟨pctSubst i msg.data⟩

/-- The loop of `_run_commands` (lines 220-227) starting at index `i`.
Returns the job-step log — one `(update_job_step message, command)` entry
per `system_call` invocation, in order — together with the
`(success, error message)` pair the function returns. -/
def runCommandsGo (sys : String → SysResult) (msg : String) (i : Nat) :
    List String → List (String × String) × Bool × String
  | [] => ([], true, "")
  | cmd :: rest =>
    let r := sys cmd
    if r.return_value ≠ 0 then
      ([(pctFormat msg i, cmd)], false, errorMsgFor r.std_out r.std_err cmd)
    else
      let t := runCommandsGo sys msg (i + 1) rest
      ((pctFormat msg i, cmd) :: t.1, t.2)

/-- Embeds `_run_commands(qclient, job_id, commands, msg)` (lines 219-229), with
the executed-command trace made explicit (first component). -/
def run_commands (sys : String → SysResult) (msg : String) (commands : List String) :
    List (String × String) × Bool × String :=
  runCommandsGo sys msg 0 commands

/-- The `qiita_client.ArtifactInfo` value as constructed at line 253. -/
structure ArtifactInfo where
  output_name : String
  artifact_type : String
  files : List String
deriving Repr, DecidableEq

/-- The two suffix templates of `_per_sample_ainfo` (lines 236-237), with
the leading `%s` placeholder stripped: `'%s' ++ R1SUF` is the first
template. -/
def R1SUF : String := ".R1.trimmed.filtered.fastq.gz"

/-- Second suffix template of `_per_sample_ainfo`, without the `%s`. -/
def R2SUF : String := ".R2.trimmed.filtered.fastq.gz"

/-- The nested loops of `_per_sample_ainfo` (lines 239-246) accumulating
`(files, missing_files)`.  The source destructures each 4-tuple as
`_, rp, _, _`, so the bound variable `rp` holds the tuple's SECOND
component — the sample name — and the inner loop over the two suffix
templates is unrolled here. -/
def collectFiles (ex : String → Bool) (out_dir : String) :
    List Sample → List String × List String → List String × List String
  | [], acc => acc
  | s :: rest, acc =>
    let f1 := pathJoin out_dir (s.sample_name ++ R1SUF)
    let acc1 := if ex f1 then (acc.1 ++ [f1], acc.2) else (acc.1, acc.2 ++ [f1])
    let f2 := pathJoin out_dir (s.sample_name ++ R2SUF)
    let acc2 := if ex f2 then (acc1.1 ++ [f2], acc1.2) else (acc1.1, acc1.2 ++ [f2])
    collectFiles ex out_dir rest acc2

/-- Embeds `_per_sample_ainfo(out_dir, samples, fwd_and_rev=False)` (lines
232-253).  `ex` is the `os.path.exists` oracle.  The `fwd_and_rev`
argument is accepted and never read, exactly as in the source. -/
def per_sample_ainfo (ex : String → Bool) (out_dir : String) (samples : List Sample)
    (fwd_and_rev : Bool) : Except String (List ArtifactInfo) :=
  let acc := collectFiles ex out_dir samples ([], [])
  if acc.1.isEmpty then .error "No sequences left after filtering"
  else .ok [⟨"QC_Trim files", "per_sample_FASTQ", acc.1⟩]

/-- The Step-3 progress template of line 302, after the Python
format call has substituted the command count for its placeholder. -/
def step3Template (n : Nat) : String :=
  "Step 3 of 4: Executing QC_Trim job (%d/" ++ toString n ++ ")"

/-- The Step-4 progress template of line 308, after the Python
format call has substituted the command count for its placeholder. -/
def step4Template (n : Nat) : String :=
  "Step 4 of 4: Generating new artifacts (%d/" ++ toString n ++ ")"

/-- Observable outcome of one `qc_filter` call: the returned triple (or the
propagated exception), whether `rmtree(temp_dir)` was reached, and the
job-step/command execution log. -/
structure QcTrace where
  result : Except String (Bool × Option (List ArtifactInfo) × String)
  tempRemoved : Bool
  invoked : List (String × String)
deriving DecidableEq

/-- Embeds `qc_filter(qclient, job_id, parameters, out_dir)` (lines 256-313) from
the point where the artifact file lists and prep-template index have been
fetched from the Qiita server (steps 1-2 are qclient HTTP glue; their
results are the `raw_forward_seqs`, `raw_reverse_seqs` and `sn_by_rp`
arguments, and `temp_dir` is the `mkdtemp()` result).  An uncaught
`ValueError`/`KeyError` propagates as `.error`; note which paths reach
`rmtree(temp_dir)` (line 312). -/
def qc_filter (sys : String → SysResult) (ex : String → Bool) (env : Option String)
    (raw_forward_seqs raw_reverse_seqs : List String)
    (sn_by_rp : List (String × String)) (parameters : List (String × String))
    (out_dir temp_dir : String) : QcTrace :=
  match generate_qc_filter_commands env raw_forward_seqs raw_reverse_seqs sn_by_rp
      out_dir temp_dir parameters with
  | .error e => ⟨.error e, false, []⟩
  | .ok (commands, samples) =>
    let r1 := run_commands sys (step3Template commands.length) commands
    if r1.2.1 = false then
      ⟨.ok (false, none, r1.2.2), false, r1.1⟩
    else
      let r2 := run_commands sys (step4Template commands.length) commands
      match per_sample_ainfo ex out_dir samples (!raw_reverse_seqs.isEmpty) with
      | .error e => ⟨.error e, false, r1.1 ++ r2.1⟩
      | .ok ainfo => ⟨.ok (true, some ainfo, ""), true, r1.1 ++ r2.1⟩

/-- The run prefixes of the index that are string-prefixes of the basename
of a file path. -/
def matchingPrefs (sn_by_rp : List (String × String)) (fp : String) : List String :=
  (keysOf sn_by_rp).filter (fun rp => startswith (basename fp) rp)

/-- The unique run prefix matching a file path's basename, when exactly one
matches. -/
def matchedPref (sn_by_rp : List (String × String)) (fp : String) : Option String :=
  match matchingPrefs sn_by_rp fp with
  | [rp] => some rp
  | _ => none

/-- One `(fwd, rev)` pair of the matching loop together with the run prefix
it should consume: the forward path is present, its basename matches
exactly that run prefix, and any reverse basename starts with it. -/
def GoodPair (idx : List (String × String)) (p : Option String × Option String)
    (rp : String) : Prop :=
  ∃ f, p.1 = some f ∧ matchedPref idx f = some rp ∧
    ∀ r, p.2 = some r → startswith (basename r) rp = true

/-- How one `(fwd, rev)` pair of the loop relates to the sample built from
it: same forward and reverse paths, a run prefix that is the unique match
of the forward basename, and the sample name looked up in the index. -/
def MatchedSample (idx : List (String × String)) (p : Option String × Option String)
    (s : Sample) : Prop :=
  p.1 = some s.fwd_fp ∧ p.2 = s.rev_fp ∧
    matchedPref idx s.fwd_fp = some s.run_pref ∧
    s.sample_name = lookupD idx s.run_pref

/-- Oracle for the C4 witness: command `bad` fails, everything else
succeeds. -/
def sysFailBad : String → SysResult := fun c =>
  if c = "bad" then ⟨"o", "e", 1⟩ else ⟨"", "", 0⟩

/-- Shared concrete configuration mapping for witnesses: both schema keys
present, database `Human`, four threads. -/
def paramsHuman : List (String × String) :=
  [("Bowtie2 database to filter", "Human"), ("Number of threads to be used", "4")]

/-- The two output filenames `_per_sample_ainfo` probes for one sample:
built from the tuple component the source binds as `rp` — which is the
SAMPLE NAME, not the run prefix — with both the R1 and the R2 suffix. -/
def expectedFiles (out_dir : String) (s : Sample) : List String :=
  [pathJoin out_dir (s.sample_name ++ R1SUF), pathJoin out_dir (s.sample_name ++ R2SUF)]

/-- The collector as the claim describes it (modelled from the claim's
words, for comparison): expected filenames built from the sample's
run_prefix, with a suffix template depending on the pairing mode (paired:
R1 and R2; single-end: R1 only). -/
def per_sample_ainfo_claim (ex : String → Bool) (out_dir : String)
    (samples : List Sample) (fwd_and_rev : Bool) : Except String (List ArtifactInfo) :=
  let files := samples.flatMap (fun s =>
    (if fwd_and_rev then
      [pathJoin out_dir (s.run_pref ++ R1SUF), pathJoin out_dir (s.run_pref ++ R2SUF)]
     else [pathJoin out_dir (s.run_pref ++ R1SUF)]).filter ex)
  if files.isEmpty then .error "No sequences left after filtering"
  else .ok [⟨"QC_Trim files", "per_sample_FASTQ", files⟩]

/-- Oracle for the C6 counterexample: exactly the two sample-name-based
output files exist; no run-prefix-based file does. -/
def exSampGz : String → Bool := fun f =>
  f == "out/SAMP.R1.trimmed.filtered.fastq.gz" ||
    f == "out/SAMP.R2.trimmed.filtered.fastq.gz"

/-- Oracle under which every external command fails. -/
def sysAllFail : String → SysResult := fun _ => ⟨"o", "e", 1⟩

/-- Oracle under which every external command succeeds silently. -/
def sysAllOk : String → SysResult := fun _ => ⟨"", "", 0⟩

/-- Filesystem oracle: no file exists. -/
def exNone : String → Bool := fun _ => false

/-- Filesystem oracle: every file exists. -/
def exAll : String → Bool := fun _ => true

/-! ## Basic lemmas -/

theorem exceptMapOk {α β : Type} (f : α → β) (x : Except String α) (b : β) :
    x.map f = .ok b ↔ ∃ a, x = .ok a ∧ b = f a := by
  cases x <;> simp [Except.map, eq_comm]

theorem findRunPrefGo_some (fn : String) (l : List String) (rp0 : String) :
    findRunPrefGo fn l (some rp0) =
      if (l.filter (fun rp => startswith fn rp)).isEmpty then .ok (some rp0)
      else .error ("Multiple run prefixes match this fwd read: " ++ fn) := by
  induction l with
  | nil => simp [findRunPrefGo]
  | cons c l ih =>
    by_cases h : startswith fn c
    · simp [findRunPrefGo, h, List.filter_cons]
    · simp [findRunPrefGo, h, List.filter_cons, ih]

theorem findRunPref_eq (keys : List String) (fn : String) :
    findRunPref keys fn =
      match keys.filter (fun rp => startswith fn rp) with
      | [] => .ok none
      | [rp] => .ok (some rp)
      | _ :: _ :: _ => .error ("Multiple run prefixes match this fwd read: " ++ fn) := by
  induction keys with
  | nil => simp [findRunPref, findRunPrefGo]
  | cons c ks ih =>
    by_cases h : startswith fn c
    · rw [findRunPref] at *
      simp only [findRunPrefGo, h, if_true, List.filter_cons]
      rw [findRunPrefGo_some]
      cases hks : ks.filter (fun rp => startswith fn rp) with
      | nil => simp [hks]
      | cons a as => simp [hks]
    · rw [findRunPref] at *
      simp only [findRunPrefGo, h, List.filter_cons]
      simpa using ih

theorem zipLongest_nil_right (xs : List String) :
    zipLongest xs [] = xs.map (fun x => (some x, none)) := by
  induction xs with
  | nil => rfl
  | cons x xs ih => simp [zipLongest, ih]

theorem zipLongest_eq_zip (xs ys : List String) (h : xs.length = ys.length) :
    zipLongest xs ys = (xs.zip ys).map (fun p => (some p.1, some p.2)) := by
  induction xs generalizing ys with
  | nil =>
    cases ys with
    | nil => rfl
    | cons y ys => simp at h
  | cons x xs ih =>
    cases ys with
    | nil => simp at h
    | cons y ys =>
      simp only [List.length_cons, Nat.succ.injEq] at h
      simp [zipLongest, List.zip_cons_cons, ih ys h]

theorem charListLe_total (a b : List Char) : charListLe a b = true ∨ charListLe b a = true := by
  induction a generalizing b with
  | nil => left; rfl
  | cons x xs ih =>
    cases b with
    | nil => right; rfl
    | cons y ys =>
      rcases lt_trichotomy x y with h | h | h
      · left; simp [charListLe, h]
      · subst h
        rcases ih ys with h2 | h2
        · left; simp [charListLe, lt_irrefl, h2]
        · right; simp [charListLe, lt_irrefl, h2]
      · right; simp [charListLe, h]

theorem charListLe_trans (a b c : List Char) (h1 : charListLe a b = true)
    (h2 : charListLe b c = true) : charListLe a c = true := by
  induction a generalizing b c with
  | nil => rfl
  | cons x xs ih =>
    cases b with
    | nil => simp [charListLe] at h1
    | cons y ys =>
      cases c with
      | nil => simp [charListLe] at h2
      | cons z zs =>
        simp only [charListLe] at h1 h2 ⊢
        rcases lt_trichotomy x y with hxy | hxy | hxy
        · rcases lt_trichotomy y z with hyz | hyz | hyz
          · simp [lt_trans hxy hyz]
          · subst hyz; simp [hxy]
          · simp [hyz, not_lt_of_lt hyz] at h2
        · subst hxy
          rcases lt_trichotomy x z with hyz | hyz | hyz
          · simp [hyz]
          · subst hyz
            simp only [lt_irrefl, if_false] at h1 h2 ⊢
            exact ih _ _ h1 h2
          · simp [hyz, not_lt_of_lt hyz] at h2
        · simp [hxy, not_lt_of_lt hxy] at h1

instance : IsTotal String strLe :=
  ⟨fun a b => charListLe_total a.data b.data⟩

instance : IsTrans String strLe :=
  ⟨fun a b c => charListLe_trans a.data b.data c.data⟩

theorem sortStr_perm (l : List String) : (sortStr l).Perm l :=
  List.perm_insertionSort strLe l

theorem sortStr_sorted (l : List String) : List.Sorted strLe (sortStr l) :=
  List.sorted_insertionSort strLe l

theorem sortStr_length (l : List String) : (sortStr l).length = l.length :=
  (sortStr_perm l).length_eq

/-! ## Matching predicate lemmas -/

theorem matchedPref_some_iff (idx : List (String × String)) (fp rp : String) :
    matchedPref idx fp = some rp ↔ matchingPrefs idx fp = [rp] := by
  unfold matchedPref
  cases h : matchingPrefs idx fp with
  | nil => simp
  | cons a as =>
    cases as with
    | nil => simp
    | cons b bs => simp

/-! ## pairLoop lemmas -/

theorem pairLoop_ok (idx : List (String × String))
    {pairs : List (Option String × Option String)} {rps : List String}
    (h : List.Forall₂ (GoodPair idx) pairs rps) :
    ∀ used : List String, (∀ rp ∈ rps, rp ∉ used) → rps.Nodup →
      ∃ samples, pairLoop idx used pairs = .ok samples ∧
        List.Forall₂ (MatchedSample idx) pairs samples ∧
        samples.map (fun s => s.run_pref) = rps := by
  induction h with
  | nil =>
    intro used hu hnd
    exact ⟨[], rfl, List.Forall₂.nil, rfl⟩
  | @cons p rp ps rps hpr htail ih =>
    intro used hu hnd
    obtain ⟨p1, p2⟩ := p
    obtain ⟨f, hp1, hmp, hrev⟩ := hpr
    simp only at hp1
    subst hp1
    have hfilter : (keysOf idx).filter (fun k => startswith (basename f) k) = [rp] :=
      (matchedPref_some_iff idx f rp).mp hmp
    have hfind : findRunPref (keysOf idx) (basename f) = .ok (some rp) := by
      rw [findRunPref_eq, hfilter]
    have hnotin : rp ∉ used := hu rp (List.mem_cons_self rp rps)
    have hu2 : ∀ rp2 ∈ rps, rp2 ∉ rp :: used := by
      intro rp2 hmem hmem2
      rcases List.mem_cons.mp hmem2 with heq | hmem3
      · subst heq; exact (List.nodup_cons.mp hnd).1 hmem
      · exact hu rp2 (List.mem_cons_of_mem rp hmem) hmem3
    obtain ⟨samples2, hloop, hfa, hmapr⟩ := ih (rp :: used) hu2 (List.nodup_cons.mp hnd).2
    cases p2 with
    | none =>
      refine ⟨⟨rp, lookupD idx rp, f, none⟩ :: samples2, ?_, ?_, ?_⟩
      · simp only [pairLoop, hfind, hnotin, if_false, hloop, Except.map]
      · exact List.Forall₂.cons ⟨rfl, rfl, hmp, rfl⟩ hfa
      · simp [hmapr]
    | some r =>
      have hsw : startswith (basename r) rp = true := hrev r rfl
      refine ⟨⟨rp, lookupD idx rp, f, some r⟩ :: samples2, ?_, ?_, ?_⟩
      · simp only [pairLoop, hfind, hnotin, if_false, hsw, if_true, hloop, Except.map]
      · exact List.Forall₂.cons ⟨rfl, rfl, hmp, rfl⟩ hfa
      · simp [hmapr]

theorem pairLoop_nodup (idx : List (String × String)) :
    ∀ (pairs : List (Option String × Option String)) (used : List String)
      (samples : List Sample), pairLoop idx used pairs = .ok samples →
      (samples.map (fun s => s.run_pref)).Nodup ∧
      ∀ rp ∈ samples.map (fun s => s.run_pref), rp ∉ used := by
  intro pairs
  induction pairs with
  | nil =>
    intro used samples h
    simp only [pairLoop, Except.ok.injEq] at h
    subst h
    simp
  | cons q ps ih =>
    intro used samples h
    obtain ⟨q1, q2⟩ := q
    simp only [pairLoop] at h
    cases q1 with
    | none => cases h
    | some f =>
      dsimp only at h
      cases hfind : findRunPref (keysOf idx) (basename f) with
      | error e => rw [hfind] at h; cases h
      | ok o =>
        rw [hfind] at h
        cases o with
        | none => cases h
        | some rp =>
          by_cases hin : rp ∈ used
          · simp [hin] at h
          · simp only [hin, if_false] at h
            have main : ∀ rev2 : Option String,
                (pairLoop idx (rp :: used) ps).map
                  (fun ss => (⟨rp, lookupD idx rp, f, rev2⟩ : Sample) :: ss) = .ok samples →
                (samples.map (fun s => s.run_pref)).Nodup ∧
                ∀ rp2 ∈ samples.map (fun s => s.run_pref), rp2 ∉ used := by
              intro rev2 hmap
              rw [exceptMapOk] at hmap
              obtain ⟨ss, hss, heq⟩ := hmap
              subst heq
              obtain ⟨hnd, hdisj⟩ := ih (rp :: used) ss hss
              constructor
              · rw [List.map_cons]
                refine List.nodup_cons.mpr ⟨?_, hnd⟩
                intro hmem
                exact hdisj rp hmem (List.mem_cons_self rp used)
              · intro rp2 hmem
                rw [List.map_cons, List.mem_cons] at hmem
                rcases hmem with heq2 | hmem2
                · simpa [heq2] using hin
                · intro hmem3
                  exact hdisj rp2 hmem2 (List.mem_cons_of_mem rp hmem3)
            cases q2 with
            | none => exact main none h
            | some r =>
              by_cases hsw : startswith (basename r) rp
              · simp only [hsw, if_true] at h
                exact main (some r) h
              · simp [hsw] at h

theorem pairLoop_error (idx : List (String × String)) :
    ∀ (pairs : List (Option String × Option String)) (used : List String),
      (∃ p ∈ pairs, ∃ f, p.1 = some f ∧ (matchingPrefs idx f).length ≠ 1) →
      ∃ e, pairLoop idx used pairs = .error e := by
  intro pairs
  induction pairs with
  | nil =>
    intro used hbad
    obtain ⟨p, hp, _⟩ := hbad
    cases hp
  | cons q ps ih =>
    intro used hbad
    obtain ⟨p, hp, f, hpf, hlen⟩ := hbad
    obtain ⟨q1, q2⟩ := q
    rcases List.mem_cons.mp hp with heq | htail
    · subst heq
      simp only at hpf
      subst hpf
      simp only [pairLoop, findRunPref_eq]
      cases hm : matchingPrefs idx f with
      | nil =>
        unfold matchingPrefs at hm
        rw [hm]
        exact ⟨_, rfl⟩
      | cons a as =>
        cases as with
        | nil => rw [hm] at hlen; simp at hlen
        | cons b bs =>
          unfold matchingPrefs at hm
          rw [hm]
          exact ⟨_, rfl⟩
    · simp only [pairLoop]
      cases q1 with
      | none => exact ⟨_, rfl⟩
      | some g =>
        dsimp only
        cases hfind : findRunPref (keysOf idx) (basename g) with
        | error e => exact ⟨e, rfl⟩
        | ok o =>
          cases o with
          | none => exact ⟨_, rfl⟩
          | some rp =>
            by_cases hin : rp ∈ used
            · simp only [hin, if_true]
              exact ⟨_, rfl⟩
            · simp only [hin, if_false]
              obtain ⟨e, he⟩ := ih (rp :: used) ⟨p, htail, f, hpf, hlen⟩
              cases q2 with
              | none => exact ⟨e, by rw [he]; rfl⟩
              | some r =>
                by_cases hsw : startswith (basename r) rp
                · simp only [hsw, if_true]
                  exact ⟨e, by rw [he]; rfl⟩
                · simp only [hsw, if_false]
                  exact ⟨_, rfl⟩

theorem pairLoop_rev_none (idx : List (String × String)) :
    ∀ (pairs : List (Option String × Option String)) (used : List String)
      (samples : List Sample), (∀ p ∈ pairs, p.2 = (none : Option String)) →
      pairLoop idx used pairs = .ok samples → ∀ s ∈ samples, s.rev_fp = none := by
  intro pairs
  induction pairs with
  | nil =>
    intro used samples _ h
    simp only [pairLoop, Except.ok.injEq] at h
    subst h
    simp
  | cons q ps ih =>
    intro used samples hnone h
    obtain ⟨q1, q2⟩ := q
    have hq2 : q2 = none := hnone (q1, q2) (List.mem_cons_self _ _)
    subst hq2
    simp only [pairLoop] at h
    cases q1 with
    | none => cases h
    | some f =>
      dsimp only at h
      cases hfind : findRunPref (keysOf idx) (basename f) with
      | error e => rw [hfind] at h; cases h
      | ok o =>
        rw [hfind] at h
        cases o with
        | none => cases h
        | some rp =>
          by_cases hin : rp ∈ used
          · simp [hin] at h
          · simp only [hin, if_false] at h
            rw [exceptMapOk] at h
            obtain ⟨ss, hss, heq⟩ := h
            subst heq
            intro s hs
            rcases List.mem_cons.mp hs with heq2 | hmem
            · subst heq2; rfl
            · exact ih (rp :: used) ss
                (fun p hp => hnone p (List.mem_cons_of_mem _ hp)) hss s hmem

theorem pairLoop_find (idx : List (String × String)) :
    ∀ (pairs : List (Option String × Option String)) (used : List String)
      (samples : List Sample), pairLoop idx used pairs = .ok samples →
      List.Forall₂ (fun (p : Option String × Option String) (s : Sample) =>
        p.1 = some s.fwd_fp ∧
        findRunPref (keysOf idx) (basename s.fwd_fp) = .ok (some s.run_pref))
        pairs samples := by
  intro pairs
  induction pairs with
  | nil =>
    intro used samples h
    simp only [pairLoop, Except.ok.injEq] at h
    subst h
    exact List.Forall₂.nil
  | cons q ps ih =>
    intro used samples h
    obtain ⟨q1, q2⟩ := q
    simp only [pairLoop] at h
    cases q1 with
    | none => cases h
    | some f =>
      dsimp only at h
      cases hfind : findRunPref (keysOf idx) (basename f) with
      | error e => rw [hfind] at h; cases h
      | ok o =>
        rw [hfind] at h
        cases o with
        | none => cases h
        | some rp =>
          by_cases hin : rp ∈ used
          · simp [hin] at h
          · simp only [hin, if_false] at h
            have main : ∀ rev2 : Option String,
                (pairLoop idx (rp :: used) ps).map
                  (fun ss => (⟨rp, lookupD idx rp, f, rev2⟩ : Sample) :: ss) = .ok samples →
                List.Forall₂ (fun (p : Option String × Option String) (s : Sample) =>
                  p.1 = some s.fwd_fp ∧
                  findRunPref (keysOf idx) (basename s.fwd_fp) = .ok (some s.run_pref))
                  ((some f, q2) :: ps) samples := by
              intro rev2 hmap
              rw [exceptMapOk] at hmap
              obtain ⟨ss, hss, heq⟩ := hmap
              subst heq
              exact List.Forall₂.cons ⟨rfl, hfind⟩ (ih (rp :: used) ss hss)
            cases q2 with
            | none => exact main none h
            | some r =>
              by_cases hsw : startswith (basename r) rp
              · simp only [hsw, if_true] at h
                exact main (some r) h
              · simp [hsw] at h

/-! ## Forall₂ helpers -/

theorem forall2_map_map {α β γ : Type} {R : β → γ → Prop} (l : List α)
    (g : α → β) (k : α → γ) (H : ∀ x ∈ l, R (g x) (k x)) :
    List.Forall₂ R (l.map g) (l.map k) := by
  induction l with
  | nil => exact List.Forall₂.nil
  | cons x xs ih =>
    exact List.Forall₂.cons (H x (List.mem_cons_self x xs))
      (ih (fun y hy => H y (List.mem_cons_of_mem x hy)))

theorem forall2_map_eq {α β γ : Type} {R : α → β → Prop} {as : List α} {bs : List β}
    (h : List.Forall₂ R as bs) (g : α → γ) (k : β → γ)
    (H : ∀ a b, R a b → g a = k b) : as.map g = bs.map k := by
  induction h with
  | nil => rfl
  | cons hab htail ih => simp [H _ _ hab, ih]

theorem forall2_mem_right {α β : Type} {R : α → β → Prop} {as : List α} {bs : List β}
    (h : List.Forall₂ R as bs) {b : β} (hb : b ∈ bs) : ∃ a ∈ as, R a b := by
  induction h with
  | nil => cases hb
  | cons hab htail ih =>
    rcases List.mem_cons.mp hb with heq | hmem
    · subst heq; exact ⟨_, List.mem_cons_self _ _, hab⟩
    · obtain ⟨a, ha, hr⟩ := ih hmem
      exact ⟨a, List.mem_cons_of_mem _ ha, hr⟩

theorem forall2_mem_left {α β : Type} {R : α → β → Prop} {as : List α} {bs : List β}
    (h : List.Forall₂ R as bs) {a : α} (ha : a ∈ as) : ∃ b ∈ bs, R a b := by
  induction h with
  | nil => cases ha
  | cons hab htail ih =>
    rcases List.mem_cons.mp ha with heq | hmem
    · subst heq; exact ⟨_, List.mem_cons_self _ _, hab⟩
    · obtain ⟨b, hb, hr⟩ := ih hmem
      exact ⟨b, List.mem_cons_of_mem _ hb, hr⟩

/-! ## Reduction lemmas for make_read_pairs_per_sample -/

theorem mrpps_nil_rev (fwd : List String) (idx : List (String × String)) :
    make_read_pairs_per_sample fwd [] idx =
      pairLoop idx [] (zipLongest (sortStr fwd) []) := by
  simp [make_read_pairs_per_sample]

theorem mrpps_eq_len (fwd rev : List String) (idx : List (String × String))
    (h : (sortStr fwd).length = rev.length) :
    make_read_pairs_per_sample fwd rev idx =
      pairLoop idx [] (zipLongest (sortStr fwd)
        (if rev.isEmpty then rev else sortStr rev)) := by
  simp [make_read_pairs_per_sample, h]

theorem mrpps_len_mismatch (fwd rev : List String) (idx : List (String × String))
    (h1 : rev ≠ []) (h2 : (sortStr fwd).length ≠ rev.length) :
    ∃ e, make_read_pairs_per_sample fwd rev idx = .error e :=
  ⟨"Your reverse and forward files are of different length. Forward: " ++
      joinComma (sortStr fwd) ++ ". Reverse: " ++ joinComma rev ++ ".",
    by simp [make_read_pairs_per_sample, h1, h2]⟩

theorem matchedSamples_map_fwd {idx : List (String × String)}
    {pairs : List (Option String × Option String)} {samples : List Sample}
    {L : List String} (hfa : List.Forall₂ (MatchedSample idx) pairs samples)
    (hfst : pairs.map Prod.fst = L.map some) :
    samples.map (fun s => s.fwd_fp) = L := by
  have h1 : pairs.map Prod.fst = samples.map (fun s => some s.fwd_fp) :=
    forall2_map_eq hfa Prod.fst (fun s => some s.fwd_fp) (fun p s hps => hps.1)
  have h2 : (samples.map (fun s => s.fwd_fp)).map some = L.map some := by
    rw [List.map_map]
    rw [← hfst, h1]
    rfl
  exact List.map_injective_iff.mpr (Option.some_injective String) h2

theorem matchedPref_getD (idx : List (String × String)) {f : String}
    (h : ∃ rp, matchingPrefs idx f = [rp]) :
    matchedPref idx f = some ((matchedPref idx f).getD "") := by
  obtain ⟨rp, hrp⟩ := h
  rw [(matchedPref_some_iff idx f rp).mpr hrp]
  rfl

theorem rps_nodup_of (idx : List (String × String)) (L : List String)
    (hone : ∀ f ∈ L, ∃ rp, matchingPrefs idx f = [rp])
    (hdist : L.Pairwise (fun f g => matchedPref idx f ≠ matchedPref idx g)) :
    (L.map (fun f => (matchedPref idx f).getD "")).Nodup := by
  have hLnd : L.Nodup := hdist.imp (fun {a b} hab heq => hab (by rw [heq]))
  apply List.Nodup.map_on ?_ hLnd
  intro x hx y hy hfeq
  by_contra hne
  have hxy : matchedPref idx x ≠ matchedPref idx y :=
    hdist.forall (fun {a b} h => h.symm) hx hy hne
  have hx2 := matchedPref_getD idx (hone x hx)
  have hy2 := matchedPref_getD idx (hone y hy)
  exact hxy (by rw [hx2, hy2, hfeq])

theorem matchedSamples_props {idx : List (String × String)}
    {pairs : List (Option String × Option String)} {samples : List Sample}
    (hfa : List.Forall₂ (MatchedSample idx) pairs samples) :
    ∀ s ∈ samples, matchedPref idx s.fwd_fp = some s.run_pref ∧
      s.sample_name = lookupD idx s.run_pref := by
  intro s hs
  obtain ⟨p, _, hms⟩ := forall2_mem_right hfa hs
  exact ⟨hms.2.2.1, hms.2.2.2⟩

theorem matchedSamples_summary {idx : List (String × String)}
    {pairs : List (Option String × Option String)} {samples : List Sample}
    (fwd : List String) (hfa : List.Forall₂ (MatchedSample idx) pairs samples)
    (hfst : pairs.map Prod.fst = (sortStr fwd).map some) :
    samples.map (fun s => s.fwd_fp) = sortStr fwd ∧
    List.Sorted strLe (samples.map (fun s => s.fwd_fp)) ∧
    (samples.map (fun s => s.fwd_fp)).Perm fwd ∧
    ∀ s ∈ samples, matchedPref idx s.fwd_fp = some s.run_pref ∧
      s.sample_name = lookupD idx s.run_pref := by
  have hmap := matchedSamples_map_fwd hfa hfst
  exact ⟨hmap, hmap ▸ sortStr_sorted fwd, hmap ▸ sortStr_perm fwd,
    matchedSamples_props hfa⟩

/-! ## Claim C1 -/

/-- C1, corrected: as stated the claim omits the reverse-side conditions
(see `C1_counterexample`).  Amended: for every index and file lists such
that each forward basename matches exactly one run prefix, no run prefix
is matched by two forward files, and the reverse list is either empty or
pairs off (after sorting) against the forward list with each reverse
basename starting with the run prefix matched by its forward partner,
`make_read_pairs_per_sample` succeeds and returns one sample per forward
file, ordered by lexicographic order of the forward paths, each sample
name being the index entry of its run prefix. -/
theorem C1_matcher_sorted_one_per_file (idx : List (String × String))
    (fwd rev : List String)
    (hone : ∀ f ∈ fwd, (matchingPrefs idx f).length = 1)
    (hdist : fwd.Pairwise (fun f g => matchedPref idx f ≠ matchedPref idx g))
    (hrev : rev = [] ∨ List.Forall₂
      (fun f r => ∀ rp, matchedPref idx f = some rp → startswith (basename r) rp = true)
      (sortStr fwd) (sortStr rev)) :
    ∃ samples, make_read_pairs_per_sample fwd rev idx = Except.ok samples ∧
      samples.map (fun s => s.fwd_fp) = sortStr fwd ∧
      List.Sorted strLe (samples.map (fun s => s.fwd_fp)) ∧
      (samples.map (fun s => s.fwd_fp)).Perm fwd ∧
      ∀ s ∈ samples, matchedPref idx s.fwd_fp = some s.run_pref ∧
        s.sample_name = lookupD idx s.run_pref := by
  have hones : ∀ f ∈ sortStr fwd, ∃ rp, matchingPrefs idx f = [rp] := by
    intro f hf
    exact List.length_eq_one.mp (hone f ((sortStr_perm fwd).mem_iff.mp hf))
  have hmp1 : ∀ f ∈ sortStr fwd, matchedPref idx f = some ((matchedPref idx f).getD "") :=
    fun f hf => matchedPref_getD idx (hones f hf)
  have hdistS : (sortStr fwd).Pairwise
      (fun f g => matchedPref idx f ≠ matchedPref idx g) :=
    ((sortStr_perm fwd).pairwise_iff (fun {x y} h => h.symm)).mpr hdist
  have hnd : ((sortStr fwd).map (fun f => (matchedPref idx f).getD "")).Nodup :=
    rps_nodup_of idx (sortStr fwd) hones hdistS
  by_cases hre : rev = []
  · subst hre
    rw [mrpps_nil_rev]
    have hgp : List.Forall₂ (GoodPair idx) (zipLongest (sortStr fwd) [])
        ((sortStr fwd).map (fun f => (matchedPref idx f).getD "")) := by
      rw [zipLongest_nil_right]
      apply forall2_map_map
      intro f hf
      exact ⟨f, rfl, hmp1 f hf, by intro r hr; simp at hr⟩
    obtain ⟨samples, hloop, hfa, _⟩ := pairLoop_ok idx hgp [] (by simp) hnd
    refine ⟨samples, hloop, matchedSamples_summary fwd hfa ?_⟩
    rw [zipLongest_nil_right, List.map_map]
    rfl
  · have hF := hrev.resolve_left hre
    have hlenS : (sortStr fwd).length = (sortStr rev).length := hF.length_eq
    have hlen2 : (sortStr fwd).length = rev.length := hlenS.trans (sortStr_length rev)
    rw [mrpps_eq_len fwd rev idx hlen2]
    have hie : rev.isEmpty = false := by
      cases rev with
      | nil => exact absurd rfl hre
      | cons a as => rfl
    rw [hie]
    simp only [Bool.false_eq_true, if_false]
    rw [zipLongest_eq_zip _ _ hlenS]
    have hfst0 : ((sortStr fwd).zip (sortStr rev)).map Prod.fst = sortStr fwd :=
      List.map_fst_zip _ _ (le_of_eq hlenS)
    have hrps : ((sortStr fwd).zip (sortStr rev)).map
          (fun p => (matchedPref idx p.1).getD "") =
        (sortStr fwd).map (fun f => (matchedPref idx f).getD "") := by
      conv_lhs =>
        rw [show (fun p : String × String => (matchedPref idx p.1).getD "") =
          ((fun f => (matchedPref idx f).getD "") ∘ Prod.fst) from rfl]
      rw [← List.map_map, hfst0]
    have hgp : List.Forall₂ (GoodPair idx)
        (((sortStr fwd).zip (sortStr rev)).map (fun p => (some p.1, some p.2)))
        (((sortStr fwd).zip (sortStr rev)).map (fun p => (matchedPref idx p.1).getD "")) := by
      apply forall2_map_map
      intro p hp
      obtain ⟨a, b⟩ := p
      have hmem := List.of_mem_zip hp
      refine ⟨a, rfl, hmp1 a hmem.1, ?_⟩
      intro r hr
      simp only [Option.some.injEq] at hr
      subst hr
      exact (List.forall₂_iff_zip.mp hF).2 hp _ (hmp1 a hmem.1)
    rw [hrps] at hgp
    obtain ⟨samples, hloop, hfa, _⟩ := pairLoop_ok idx hgp [] (by simp) hnd
    refine ⟨samples, hloop, matchedSamples_summary fwd hfa ?_⟩
    rw [List.map_map]
    calc ((sortStr fwd).zip (sortStr rev)).map (Prod.fst ∘ fun p => (some p.1, some p.2))
        = ((sortStr fwd).zip (sortStr rev)).map (some ∘ Prod.fst) := rfl
      _ = (((sortStr fwd).zip (sortStr rev)).map Prod.fst).map some := by
          rw [List.map_map]
      _ = (sortStr fwd).map some := by rw [hfst0]

/-- C1 counterexample: with index `[("a", "S")]`, forward list `["a_f"]`
and reverse list `["b_r"]`, every forward basename matches exactly one run
prefix and no run prefix is matched by two forward files, yet
`make_read_pairs_per_sample` raises (the reverse basename does not start
with the matched run prefix), so it does not return one tuple per forward
file as the claim states. -/
theorem C1_counterexample :
    (∀ f ∈ ["a_f"], (matchingPrefs [("a", "S")] f).length = 1) ∧
    List.Pairwise
      (fun f g => matchedPref [("a", "S")] f ≠ matchedPref [("a", "S")] g) ["a_f"] ∧
    make_read_pairs_per_sample ["a_f"] ["b_r"] [("a", "S")] =
      .error ("Reverse read does not match this run prefix.\nRun prefix: a\nForward read: a_f\nReverse read: b_r\n") :=
  ⟨by decide, by decide, by decide⟩

/-- Witness instantiating `C1_matcher_sorted_one_per_file` on a concrete
input and discharging its hypotheses there. -/
theorem C1_witness :
    ((∀ f ∈ ["s2_a", "s1_a"], (matchingPrefs [("s1", "SKB8"), ("s2", "SKD8")] f).length = 1) ∧
      List.Pairwise (fun f g => matchedPref [("s1", "SKB8"), ("s2", "SKD8")] f ≠
        matchedPref [("s1", "SKB8"), ("s2", "SKD8")] g) ["s2_a", "s1_a"]) ∧
    ∃ samples, make_read_pairs_per_sample ["s2_a", "s1_a"] []
        [("s1", "SKB8"), ("s2", "SKD8")] = Except.ok samples ∧
      samples.map (fun s => s.fwd_fp) = sortStr ["s2_a", "s1_a"] ∧
      List.Sorted strLe (samples.map (fun s => s.fwd_fp)) ∧
      (samples.map (fun s => s.fwd_fp)).Perm ["s2_a", "s1_a"] ∧
      ∀ s ∈ samples, matchedPref [("s1", "SKB8"), ("s2", "SKD8")] s.fwd_fp = some s.run_pref ∧
        s.sample_name = lookupD [("s1", "SKB8"), ("s2", "SKD8")] s.run_pref :=
  ⟨⟨by decide, by decide⟩,
    C1_matcher_sorted_one_per_file [("s1", "SKB8"), ("s2", "SKD8")] ["s2_a", "s1_a"] []
      (by decide) (by decide) (Or.inl rfl)⟩

/-! ## Claim C2 -/

/-- C2: if some forward file's basename is a string-prefix match of zero
or of two or more run prefixes of the index, `make_read_pairs_per_sample`
fails with a `ValueError` and returns no sample list. -/
theorem C2_unmatched_or_ambiguous_fails (idx : List (String × String))
    (fwd rev : List String) (f : String) (hf : f ∈ fwd)
    (hbad : (matchingPrefs idx f).length ≠ 1) :
    ∃ e, make_read_pairs_per_sample fwd rev idx = .error e := by
  by_cases hre : rev = []
  · subst hre
    rw [mrpps_nil_rev]
    apply pairLoop_error
    refine ⟨(some f, none), ?_, f, rfl, hbad⟩
    rw [zipLongest_nil_right]
    exact List.mem_map.mpr ⟨f, (sortStr_perm fwd).mem_iff.mpr hf, rfl⟩
  · by_cases hlen : (sortStr fwd).length = rev.length
    · rw [mrpps_eq_len fwd rev idx hlen]
      apply pairLoop_error
      have hie : rev.isEmpty = false := by
        cases rev with
        | nil => exact absurd rfl hre
        | cons a as => rfl
      rw [hie]
      simp only [Bool.false_eq_true, if_false]
      have hlenS : (sortStr fwd).length = (sortStr rev).length :=
        hlen.trans (sortStr_length rev).symm
      rw [zipLongest_eq_zip _ _ hlenS]
      have hfS : f ∈ ((sortStr fwd).zip (sortStr rev)).map Prod.fst := by
        rw [List.map_fst_zip _ _ (le_of_eq hlenS)]
        exact (sortStr_perm fwd).mem_iff.mpr hf
      obtain ⟨p, hp, hpf⟩ := List.mem_map.mp hfS
      refine ⟨(some f, some p.2), ?_, f, rfl, hbad⟩
      exact List.mem_map.mpr ⟨p, hp, by rw [hpf]⟩
    · exact mrpps_len_mismatch fwd rev idx hre hlen

/-- Witness instantiating `C2_unmatched_or_ambiguous_fails` on a concrete
input (no run prefix matches `zz`) and discharging its hypotheses there. -/
theorem C2_witness :
    ("zz" ∈ ["zz"] ∧ (matchingPrefs [("a", "S")] "zz").length ≠ 1) ∧
    ∃ e, make_read_pairs_per_sample ["zz"] [] [("a", "S")] = .error e :=
  ⟨⟨by decide, by decide⟩,
    C2_unmatched_or_ambiguous_fails [("a", "S")] ["zz"] [] "zz" (by decide) (by decide)⟩

/-! ## Claim C3 -/

theorem mrpps_run_pref_nodup (idx : List (String × String)) (fwd rev : List String)
    (samples : List Sample)
    (h : make_read_pairs_per_sample fwd rev idx = .ok samples) :
    (samples.map (fun s => s.run_pref)).Nodup := by
  by_cases hre : rev = []
  · subst hre
    rw [mrpps_nil_rev] at h
    exact (pairLoop_nodup idx _ [] samples h).1
  · by_cases hlen : (sortStr fwd).length = rev.length
    · rw [mrpps_eq_len fwd rev idx hlen] at h
      exact (pairLoop_nodup idx _ [] samples h).1
    · obtain ⟨e, he⟩ := mrpps_len_mismatch fwd rev idx hre hlen
      rw [he] at h
      cases h

theorem mrpps_ok_sample_of_mem (idx : List (String × String)) (fwd rev : List String)
    (samples : List Sample)
    (h : make_read_pairs_per_sample fwd rev idx = .ok samples)
    (f : String) (hf : f ∈ fwd) :
    ∃ s ∈ samples, s.fwd_fp = f ∧
      findRunPref (keysOf idx) (basename f) = .ok (some s.run_pref) := by
  have hfS : f ∈ sortStr fwd := (sortStr_perm fwd).mem_iff.mpr hf
  by_cases hre : rev = []
  · subst hre
    rw [mrpps_nil_rev] at h
    have hrel := pairLoop_find idx _ [] samples h
    rw [zipLongest_nil_right] at hrel
    have hp : ((some f, none) : Option String × Option String) ∈
        (sortStr fwd).map (fun x => (some x, none)) :=
      List.mem_map.mpr ⟨f, hfS, rfl⟩
    obtain ⟨s, hs, h1, h2⟩ := forall2_mem_left hrel hp
    have hsf : s.fwd_fp = f := by
      simp only [Option.some.injEq] at h1
      exact h1.symm
    rw [hsf] at h2
    exact ⟨s, hs, hsf, h2⟩
  · by_cases hlen : (sortStr fwd).length = rev.length
    · rw [mrpps_eq_len fwd rev idx hlen] at h
      have hie : rev.isEmpty = false := by
        cases rev with
        | nil => exact absurd rfl hre
        | cons a as => rfl
      rw [hie] at h
      simp only [Bool.false_eq_true, if_false] at h
      have hlenS : (sortStr fwd).length = (sortStr rev).length :=
        hlen.trans (sortStr_length rev).symm
      rw [zipLongest_eq_zip _ _ hlenS] at h
      have hrel := pairLoop_find idx _ [] samples h
      have hfS2 : f ∈ ((sortStr fwd).zip (sortStr rev)).map Prod.fst := by
        rw [List.map_fst_zip _ _ (le_of_eq hlenS)]
        exact hfS
      obtain ⟨pr, hpr, hprf⟩ := List.mem_map.mp hfS2
      have hp : ((some f, some pr.2) : Option String × Option String) ∈
          ((sortStr fwd).zip (sortStr rev)).map (fun p => (some p.1, some p.2)) :=
        List.mem_map.mpr ⟨pr, hpr, by rw [hprf]⟩
      obtain ⟨s, hs, h1, h2⟩ := forall2_mem_left hrel hp
      have hsf : s.fwd_fp = f := by
        simp only [Option.some.injEq] at h1
        exact h1.symm
      rw [hsf] at h2
      exact ⟨s, hs, hsf, h2⟩
    · obtain ⟨e, he⟩ := mrpps_len_mismatch fwd rev idx hre hlen
      rw [he] at h
      cases h

/-- C3: in every successful matching pass the run prefixes of the returned
sample list are pairwise distinct; and whenever two distinct forward files
both (uniquely) match the same run prefix — a second file matching an
already-consumed run prefix — `make_read_pairs_per_sample` fails with a
`ValueError` and returns no sample list. -/
theorem C3_run_pref_consumed_once (idx : List (String × String))
    (fwd rev : List String) :
    (∀ samples, make_read_pairs_per_sample fwd rev idx = .ok samples →
      (samples.map (fun s => s.run_pref)).Nodup) ∧
    (∀ f g rp, f ∈ fwd → g ∈ fwd → f ≠ g →
      matchedPref idx f = some rp → matchedPref idx g = some rp →
      ∃ e, make_read_pairs_per_sample fwd rev idx = .error e) := by
  refine ⟨fun samples h => mrpps_run_pref_nodup idx fwd rev samples h, ?_⟩
  intro f g rp hf hg hne hmf hmg
  cases hres : make_read_pairs_per_sample fwd rev idx with
  | error e => exact ⟨e, rfl⟩
  | ok samples =>
    exfalso
    obtain ⟨s, hs, hsf, hsfind⟩ := mrpps_ok_sample_of_mem idx fwd rev samples hres f hf
    obtain ⟨t, ht, htf, htfind⟩ := mrpps_ok_sample_of_mem idx fwd rev samples hres g hg
    have hff : findRunPref (keysOf idx) (basename f) = .ok (some rp) := by
      rw [findRunPref_eq]
      have h2 := (matchedPref_some_iff idx f rp).mp hmf
      unfold matchingPrefs at h2
      rw [h2]
    have hgg : findRunPref (keysOf idx) (basename g) = .ok (some rp) := by
      rw [findRunPref_eq]
      have h2 := (matchedPref_some_iff idx g rp).mp hmg
      unfold matchingPrefs at h2
      rw [h2]
    rw [hsfind] at hff
    rw [htfind] at hgg
    simp only [Except.ok.injEq, Option.some.injEq] at hff hgg
    have hnd := mrpps_run_pref_nodup idx fwd rev samples hres
    have hst : s = t :=
      List.inj_on_of_nodup_map hnd hs ht (by rw [hff, hgg])
    rw [hst, htf] at hsf
    exact hne hsf.symm

/-- Witness instantiating both parts of `C3_run_pref_consumed_once` on
concrete inputs: a successful pass with distinct run prefixes, and a pass
in which two distinct forward files match the same run prefix and the
matcher fails; all hypotheses discharged there. -/
theorem C3_witness :
    (make_read_pairs_per_sample ["s1_a", "s2_b"] [] [("s1", "A"), ("s2", "B")] =
        .ok [⟨"s1", "A", "s1_a", none⟩, ⟨"s2", "B", "s2_b", none⟩] ∧
      (([⟨"s1", "A", "s1_a", none⟩, ⟨"s2", "B", "s2_b", none⟩] : List Sample).map
        (fun s => s.run_pref)).Nodup) ∧
    (("s1_a" ∈ ["s1_a", "s1_b"] ∧ "s1_b" ∈ ["s1_a", "s1_b"] ∧
        ("s1_a" : String) ≠ "s1_b" ∧
        matchedPref [("s1", "A")] "s1_a" = some "s1" ∧
        matchedPref [("s1", "A")] "s1_b" = some "s1") ∧
      ∃ e, make_read_pairs_per_sample ["s1_a", "s1_b"] [] [("s1", "A")] = .error e) :=
  ⟨⟨by decide,
      (C3_run_pref_consumed_once [("s1", "A"), ("s2", "B")] ["s1_a", "s2_b"] []).1 _
        (by decide)⟩,
    ⟨⟨by decide, by decide, by decide, by decide, by decide⟩,
      (C3_run_pref_consumed_once [("s1", "A")] ["s1_a", "s1_b"] []).2 "s1_a" "s1_b" "s1"
        (by decide) (by decide) (by decide) (by decide) (by decide)⟩⟩

/-! ## run_commands lemmas -/

theorem runGo_success (sys : String → SysResult) (msg : String) :
    ∀ (cmds : List String) (i : Nat), (runCommandsGo sys msg i cmds).2.1 = true →
      ∀ c ∈ cmds, (sys c).return_value = 0 := by
  intro cmds
  induction cmds with
  | nil => intro i h c hc; cases hc
  | cons cmd rest ih =>
    intro i h c hc
    simp only [runCommandsGo] at h
    by_cases hrv : (sys cmd).return_value = 0
    · rw [if_neg (not_not_intro hrv)] at h
      dsimp only at h
      rcases List.mem_cons.mp hc with heq | hmem
      · subst heq; exact hrv
      · exact ih (i + 1) h c hmem
    · rw [if_pos hrv] at h
      cases h

theorem runGo_success_trace (sys : String → SysResult) (msg : String) :
    ∀ (cmds : List String) (i : Nat), (runCommandsGo sys msg i cmds).2.1 = true →
      (runCommandsGo sys msg i cmds).1.map Prod.snd = cmds ∧
      (runCommandsGo sys msg i cmds).1.map Prod.fst =
        (List.range cmds.length).map (fun j => pctFormat msg (i + j)) := by
  intro cmds
  induction cmds with
  | nil => intro i _; exact ⟨rfl, rfl⟩
  | cons cmd rest ih =>
    intro i h
    simp only [runCommandsGo] at h ⊢
    by_cases hrv : (sys cmd).return_value = 0
    · rw [if_neg (not_not_intro hrv)] at h ⊢
      dsimp only at h ⊢
      obtain ⟨ih1, ih2⟩ := ih (i + 1) h
      constructor
      · simp [ih1]
      · rw [List.length_cons, List.range_succ_eq_map]
        simp only [List.map_cons, List.map_map, Nat.add_zero, ih2, List.map_map]
        refine congrArg _ ?_
        apply List.map_congr_left
        intro j _
        simp only [Function.comp_apply]
        refine congrArg _ ?_
        omega
    · rw [if_pos hrv] at h
      cases h

theorem runGo_fail_fast (sys : String → SysResult) (msg : String) (bad : String)
    (rest2 : List String) (hbad : (sys bad).return_value ≠ 0) :
    ∀ (good : List String) (i : Nat), (∀ c ∈ good, (sys c).return_value = 0) →
      (runCommandsGo sys msg i (good ++ bad :: rest2)).1.map Prod.snd = good ++ [bad] ∧
      (runCommandsGo sys msg i (good ++ bad :: rest2)).2 =
        (false, errorMsgFor (sys bad).std_out (sys bad).std_err bad) := by
  intro good
  induction good with
  | nil =>
    intro i _
    simp only [List.nil_append, runCommandsGo, if_pos hbad]
    exact ⟨by simp, by simp [errorMsgFor]⟩
  | cons c good2 ih =>
    intro i hgood
    have hc : (sys c).return_value = 0 := hgood c (List.mem_cons_self c good2)
    simp only [List.cons_append, runCommandsGo, if_neg (not_not_intro hc)]
    obtain ⟨ih1, ih2⟩ := ih (i + 1) (fun d hd => hgood d (List.mem_cons_of_mem c hd))
    exact ⟨by simp [ih1], ih2⟩

theorem runGo_result_indep (sys : String → SysResult) :
    ∀ (cmds : List String) (msg1 msg2 : String) (i1 i2 : Nat),
      (runCommandsGo sys msg1 i1 cmds).2 = (runCommandsGo sys msg2 i2 cmds).2 := by
  intro cmds
  induction cmds with
  | nil => intro msg1 msg2 i1 i2; rfl
  | cons cmd rest ih =>
    intro msg1 msg2 i1 i2
    simp only [runCommandsGo]
    by_cases hrv : (sys cmd).return_value = 0
    · rw [if_neg (not_not_intro hrv), if_neg (not_not_intro hrv)]
      exact ih msg1 msg2 (i1 + 1) (i2 + 1)
    · rw [if_pos hrv, if_pos hrv]

/-! ## Claim C4 -/

/-- C4: the executor returns success only when every command exits zero;
and whenever the command list splits as `good ++ bad :: rest` with all of
`good` exiting zero and `bad` exiting non-zero (i.e. the first failure sits
at position `good.length`), the executor invokes exactly `good ++ [bad]` —
nothing after the failing command — and returns failure with the message
built from the captured stdout, stderr and the failing command. -/
theorem C4_executor_fail_fast (sys : String → SysResult) (msg : String) :
    (∀ commands : List String, (run_commands sys msg commands).2.1 = true →
      ∀ c ∈ commands, (sys c).return_value = 0) ∧
    ∀ good bad rest2, (∀ c ∈ good, (sys c).return_value = 0) →
      (sys bad).return_value ≠ 0 →
      (run_commands sys msg (good ++ bad :: rest2)).1.map Prod.snd = good ++ [bad] ∧
      (run_commands sys msg (good ++ bad :: rest2)).2 =
        (false, "Error running QC_Filter:\nStd out: " ++ (sys bad).std_out ++
          "\nStd err: " ++ (sys bad).std_err ++ "\n\nCommand run was:\n" ++ bad) := by
  constructor
  · intro commands h
    exact runGo_success sys msg commands 0 h
  · intro good bad rest2 hgood hbad
    exact runGo_fail_fast sys msg bad rest2 hbad good 0 hgood

/-- Witness instantiating `C4_executor_fail_fast` on a concrete command
list whose second command fails, discharging its hypotheses there. -/
theorem C4_witness :
    ((∀ c ∈ ["g"], (sysFailBad c).return_value = 0) ∧
      (sysFailBad "bad").return_value ≠ 0) ∧
    (run_commands sysFailBad "step %d" (["g"] ++ "bad" :: ["after"])).1.map Prod.snd =
      ["g"] ++ ["bad"] ∧
    (run_commands sysFailBad "step %d" (["g"] ++ "bad" :: ["after"])).2 =
      (false, "Error running QC_Filter:\nStd out: " ++ "o" ++ "\nStd err: " ++ "e" ++
        "\n\nCommand run was:\n" ++ "bad") :=
  ⟨⟨by decide, by decide⟩,
    (C4_executor_fail_fast sysFailBad "step %d").2 ["g"] "bad" ["after"]
      (by decide) (by decide)⟩

/-! ## Claim C7 -/

theorem formatParamsGo_error (env : Option String) (params : List (String × String)) :
    ∀ ks : List String,
      (∃ k ∈ ks, List.lookup (lookupD BOWTIE2_PARAMS k) params = none) →
      ∃ e, formatParamsGo env params ks = .error e := by
  intro ks
  induction ks with
  | nil => rintro ⟨k, hk, _⟩; cases hk
  | cons k ks2 ih =>
    rintro ⟨k2, hk2, hmiss⟩
    rcases List.mem_cons.mp hk2 with heq | htail
    · subst heq
      simp only [formatParamsGo, hmiss]
      exact ⟨_, rfl⟩
    · simp only [formatParamsGo]
      cases hl : List.lookup (lookupD BOWTIE2_PARAMS k) params with
      | none => exact ⟨_, rfl⟩
      | some value =>
        obtain ⟨e, he⟩ := ih ⟨k2, htail, hmiss⟩
        by_cases h1 : value = "True"
        · simp only [if_pos h1]
          rw [he]
          exact ⟨_, rfl⟩
        · by_cases h2 : value = "False"
          · simp only [if_neg h1, if_pos h2]
            exact ⟨e, he⟩
          · by_cases h3 : value ≠ "" ∧ value ≠ "default"
            · by_cases h4 : k = "x"
              · simp only [if_neg h1, if_neg h2, if_pos h3, if_pos h4]
                cases env with
                | none => exact ⟨_, rfl⟩
                | some db =>
                  cases hdb : List.lookup value DATABASE_PREFIX_MAP with
                  | none => simp only [hdb]; exact ⟨_, rfl⟩
                  | some dbv =>
                    simp only [hdb]
                    rw [he]
                    exact ⟨_, rfl⟩
              · simp only [if_neg h1, if_neg h2, if_pos h3, if_neg h4]
                rw [he]
                exact ⟨_, rfl⟩
            · simp only [if_neg h1, if_neg h2, if_neg h3]
              exact ⟨e, he⟩

theorem C7_missing_key_raises (env : Option String) (params : List (String × String))
    (h : ∃ kv ∈ BOWTIE2_PARAMS, List.lookup kv.2 params = none) :
    ∃ e, format_qc_filter_params env params = .error e := by
  have hks : sortStr (BOWTIE2_PARAMS.map Prod.fst) = ["p", "x"] := by decide
  obtain ⟨kv, hkv, hmiss⟩ := h
  have hbad : ∃ k ∈ ["p", "x"], List.lookup (lookupD BOWTIE2_PARAMS k) params = none := by
    simp only [BOWTIE2_PARAMS, List.mem_cons, List.not_mem_nil, or_false,
      List.mem_singleton] at hkv
    rcases hkv with heq | heq
    · exact ⟨"x", by simp, by rw [show lookupD BOWTIE2_PARAMS "x" =
        "Bowtie2 database to filter" from rfl]; rw [heq] at hmiss; exact hmiss⟩
    · exact ⟨"p", by simp, by rw [show lookupD BOWTIE2_PARAMS "p" =
        "Number of threads to be used" from rfl]; rw [heq] at hmiss; exact hmiss⟩
  obtain ⟨e, he⟩ := formatParamsGo_error env params ["p", "x"] hbad
  refine ⟨e, ?_⟩
  unfold format_qc_filter_params
  rw [hks, he]
  rfl

/-- C7 counterexample: with the threads key present but the database key
missing, the claim predicts success with output `"-p 4"`, but the
formatter fails with a `KeyError`. -/
theorem C7_counterexample :
    List.lookup "Bowtie2 database to filter"
      [("Number of threads to be used", "4")] = none ∧
    format_qc_filter_params (some "/db") [("Number of threads to be used", "4")] =
      .error "KeyError: Bowtie2 database to filter" :=
  ⟨by decide, by decide⟩

theorem formatParamsGo_append (env : Option String) (params : List (String × String)) :
    ∀ (ks1 ks2 fl1 fl2 : List String),
      formatParamsGo env params ks1 = .ok fl1 →
      formatParamsGo env params ks2 = .ok fl2 →
      formatParamsGo env params (ks1 ++ ks2) = .ok (fl1 ++ fl2) := by
  intro ks1
  induction ks1 with
  | nil =>
    intro ks2 fl1 fl2 h1 h2
    simp only [formatParamsGo, Except.ok.injEq] at h1
    subst h1
    simpa using h2
  | cons k ks ih =>
    intro ks2 fl1 fl2 h1 h2
    rw [List.cons_append]
    simp only [formatParamsGo] at h1 ⊢
    revert h1
    cases hl : List.lookup (lookupD BOWTIE2_PARAMS k) params with
    | none =>
      intro h1
      cases h1
    | some value =>
      intro h1
      dsimp only at h1 ⊢
      by_cases hv1 : value = "True"
      · simp only [if_pos hv1] at h1 ⊢
        rw [exceptMapOk] at h1
        obtain ⟨fl1b, hfl1b, heq⟩ := h1
        subst heq
        rw [ih ks2 fl1b fl2 hfl1b h2]
        rfl
      · by_cases hv2 : value = "False"
        · simp only [if_neg hv1, if_pos hv2] at h1 ⊢
          exact ih ks2 fl1 fl2 h1 h2
        · by_cases hv3 : value ≠ "" ∧ value ≠ "default"
          · by_cases hv4 : k = "x"
            · simp only [if_neg hv1, if_neg hv2, if_pos hv3, if_pos hv4] at h1 ⊢
              cases env with
              | none => cases h1
              | some db =>
                cases hdb : List.lookup value DATABASE_PREFIX_MAP with
                | none => rw [hdb] at h1; cases h1
                | some dbv =>
                  rw [hdb] at h1
                  dsimp only at h1
                  rw [exceptMapOk] at h1
                  obtain ⟨fl1b, hfl1b, heq⟩ := h1
                  subst heq
                  rw [ih ks2 fl1b fl2 hfl1b h2]
                  rfl
            · simp only [if_neg hv1, if_neg hv2, if_pos hv3, if_neg hv4] at h1 ⊢
              rw [exceptMapOk] at h1
              obtain ⟨fl1b, hfl1b, heq⟩ := h1
              subst heq
              rw [ih ks2 fl1b fl2 hfl1b h2]
              rfl
          · simp only [if_neg hv1, if_neg hv2, if_neg hv3] at h1 ⊢
            exact ih ks2 fl1 fl2 h1 h2

theorem formatParamsGo_p_ok (env : Option String) (params : List (String × String))
    (vp : String) (hp : List.lookup "Number of threads to be used" params = some vp) :
    ∃ pf, formatParamsGo env params ["p"] = .ok pf := by
  simp only [formatParamsGo]
  rw [show lookupD BOWTIE2_PARAMS "p" = "Number of threads to be used" from rfl, hp]
  dsimp only
  by_cases hv1 : vp = "True"
  · simp only [if_pos hv1]
    exact ⟨_, rfl⟩
  · by_cases hv2 : vp = "False"
    · simp only [if_neg hv1, if_pos hv2]
      exact ⟨[], rfl⟩
    · by_cases hv3 : vp ≠ "" ∧ vp ≠ "default"
      · have hv4 : ("p" : String) ≠ "x" := by decide
        simp only [if_neg hv1, if_neg hv2, if_pos hv3, if_neg hv4]
        exact ⟨_, rfl⟩
      · simp only [if_neg hv1, if_neg hv2, if_neg hv3]
        exact ⟨[], rfl⟩

theorem formatParamsGo_x_ok (env : Option String) (params : List (String × String))
    (vx : String) (hx : List.lookup "Bowtie2 database to filter" params = some vx)
    (hres : vx = "True" ∨ vx = "False" ∨ vx = "" ∨ vx = "default" ∨
      ∃ db dbv, env = some db ∧ List.lookup vx DATABASE_PREFIX_MAP = some dbv) :
    ∃ xf, formatParamsGo env params ["x"] = .ok xf := by
  simp only [formatParamsGo]
  rw [show lookupD BOWTIE2_PARAMS "x" = "Bowtie2 database to filter" from rfl, hx]
  dsimp only
  by_cases hv1 : vx = "True"
  · simp only [if_pos hv1]
    exact ⟨_, rfl⟩
  · by_cases hv2 : vx = "False"
    · simp only [if_neg hv1, if_pos hv2]
      exact ⟨[], rfl⟩
    · by_cases hv3 : vx ≠ "" ∧ vx ≠ "default"
      · obtain ⟨db, dbv, hdb, hdbv⟩ :
            ∃ db dbv, env = some db ∧ List.lookup vx DATABASE_PREFIX_MAP = some dbv := by
          rcases hres with h | h | h | h | h
          · exact absurd h hv1
          · exact absurd h hv2
          · exact absurd h hv3.1
          · exact absurd h hv3.2
          · exact h
        subst hdb
        simp only [if_neg hv1, if_neg hv2, if_pos hv3,
          if_pos (rfl : ("x" : String) = "x"), hdbv]
        exact ⟨_, rfl⟩
      · simp only [if_neg hv1, if_neg hv2, if_neg hv3]
        exact ⟨[], rfl⟩

/-- C7, corrected: a schema key missing from the configuration mapping
makes the formatter fail with a `KeyError` (`parameters[parameter]` at
line 126) instead of silently omitting the flag; when both schema keys
are present (and the database flag, if emitted, can be resolved against
the environment variable and the database-prefix table), the formatter
succeeds and its output is the space-joined flags of key `p` followed by
those of key `x` — the sorted order of the schema keys. -/
theorem C7_formatter_two_sided (env : Option String)
    (params : List (String × String)) :
    ((∃ kv ∈ BOWTIE2_PARAMS, List.lookup kv.2 params = none) →
      ∃ e, format_qc_filter_params env params = .error e) ∧
    (∀ vx vp, List.lookup "Bowtie2 database to filter" params = some vx →
      List.lookup "Number of threads to be used" params = some vp →
      (vx = "True" ∨ vx = "False" ∨ vx = "" ∨ vx = "default" ∨
        ∃ db dbv, env = some db ∧ List.lookup vx DATABASE_PREFIX_MAP = some dbv) →
      ∃ pf xf, formatParamsGo env params ["p"] = .ok pf ∧
        formatParamsGo env params ["x"] = .ok xf ∧
        format_qc_filter_params env params =
          .ok (String.intercalate " " (pf ++ xf))) := by
  constructor
  · exact C7_missing_key_raises env params
  · intro vx vp hx hp hres
    obtain ⟨pf, hpf⟩ := formatParamsGo_p_ok env params vp hp
    obtain ⟨xf, hxf⟩ := formatParamsGo_x_ok env params vx hx hres
    have happ := formatParamsGo_append env params ["p"] ["x"] pf xf hpf hxf
    refine ⟨pf, xf, hpf, hxf, ?_⟩
    unfold format_qc_filter_params
    rw [show sortStr (BOWTIE2_PARAMS.map Prod.fst) = ["p", "x"] from by decide]
    rw [show (["p", "x"] : List String) = ["p"] ++ ["x"] from rfl, happ]
    rfl

/-- Witness instantiating both parts of `C7_formatter_two_sided`: the
missing-key failure on the empty mapping, and the success case on a full
mapping with a resolvable database value; all hypotheses discharged
there. -/
theorem C7_witness :
    ((∃ kv ∈ BOWTIE2_PARAMS, List.lookup kv.2 ([] : List (String × String)) = none) ∧
      ∃ e, format_qc_filter_params none [] = .error e) ∧
    ((List.lookup "Bowtie2 database to filter" paramsHuman = some "Human" ∧
        List.lookup "Number of threads to be used" paramsHuman = some "4" ∧
        List.lookup "Human" DATABASE_PREFIX_MAP = some "Human/phix") ∧
      ∃ pf xf, formatParamsGo (some "/db") paramsHuman ["p"] = .ok pf ∧
        formatParamsGo (some "/db") paramsHuman ["x"] = .ok xf ∧
        format_qc_filter_params (some "/db") paramsHuman =
          .ok (String.intercalate " " (pf ++ xf))) :=
  ⟨⟨⟨("x", "Bowtie2 database to filter"), by decide, by decide⟩,
      (C7_formatter_two_sided none []).1
        ⟨("x", "Bowtie2 database to filter"), by decide, by decide⟩⟩,
    ⟨⟨by decide, by decide, by decide⟩,
      (C7_formatter_two_sided (some "/db") paramsHuman).2 "Human" "4"
        (by decide) (by decide)
        (Or.inr (Or.inr (Or.inr (Or.inr ⟨"/db", "Human/phix", rfl, by decide⟩))))⟩⟩

/-! ## Claim C9 -/

theorem foldl_append_eq_map {α β : Type} (g : α → β) (l : List α) :
    ∀ acc : List β, l.foldl (fun cmds s => cmds ++ [g s]) acc = acc ++ l.map g := by
  induction l with
  | nil => intro acc; simp
  | cons x xs ih =>
    intro acc
    simp only [List.foldl_cons, List.map_cons]
    rw [ih]
    simp

theorem generate_ok_elim {env : Option String} {fwd rev : List String}
    {idx : List (String × String)} {out_dir temp_dir : String}
    {params : List (String × String)} {cmds : List String} {samples : List Sample}
    (h : generate_qc_filter_commands env fwd rev idx out_dir temp_dir params =
      .ok (cmds, samples)) :
    ∃ ps th, make_read_pairs_per_sample fwd rev idx = .ok samples ∧
      format_qc_filter_params env params = .ok ps ∧
      List.lookup "Number of threads to be used" params = some th ∧
      cmds = samples.map (buildCommand ps th out_dir temp_dir) := by
  unfold generate_qc_filter_commands at h
  cases hm : make_read_pairs_per_sample fwd rev idx with
  | error e => rw [hm] at h; cases h
  | ok samples2 =>
    rw [hm] at h
    dsimp only at h
    cases hf : format_qc_filter_params env params with
    | error e => rw [hf] at h; cases h
    | ok ps =>
      rw [hf] at h
      dsimp only at h
      cases hth : List.lookup "Number of threads to be used" params with
      | none => rw [hth] at h; cases h
      | some th =>
        rw [hth] at h
        dsimp only at h
        rw [Except.ok.injEq, Prod.mk.injEq] at h
        obtain ⟨h1, h2⟩ := h
        subst h2
        refine ⟨ps, th, rfl, rfl, rfl, ?_⟩
        rw [← h1, foldl_append_eq_map]
        simp

/-- C9: on every success of `generate_qc_filter_commands`, the command
list is exactly the sample list mapped through the per-sample command
builder — one command per sample, in sample order (so the two collections
are positionally aligned) and of equal length. -/
theorem C9_one_command_per_sample (env : Option String) (fwd rev : List String)
    (idx : List (String × String)) (out_dir temp_dir : String)
    (params : List (String × String)) (cmds : List String) (samples : List Sample)
    (h : generate_qc_filter_commands env fwd rev idx out_dir temp_dir params =
      .ok (cmds, samples)) :
    ∃ ps th, format_qc_filter_params env params = .ok ps ∧
      List.lookup "Number of threads to be used" params = some th ∧
      cmds = samples.map (buildCommand ps th out_dir temp_dir) ∧
      cmds.length = samples.length ∧
      make_read_pairs_per_sample fwd rev idx = .ok samples := by
  obtain ⟨ps, th, hm, hf, hth, hcmds⟩ := generate_ok_elim h
  exact ⟨ps, th, hf, hth, hcmds, by rw [hcmds, List.length_map], hm⟩

/-- Witness instantiating `C9_one_command_per_sample` on a concrete
successful generation and discharging its hypothesis there. -/
theorem C9_witness :
    ∃ cmds samples,
      generate_qc_filter_commands (some "/db") ["s1_R1.fq"] [] [("s1", "SKB8")]
        "out" "tmp" paramsHuman = .ok (cmds, samples) ∧
      ∃ ps th, format_qc_filter_params (some "/db") paramsHuman = .ok ps ∧
        List.lookup "Number of threads to be used" paramsHuman = some th ∧
        cmds = samples.map (buildCommand ps th "out" "tmp") ∧
        cmds.length = samples.length ∧
        make_read_pairs_per_sample ["s1_R1.fq"] [] [("s1", "SKB8")] = .ok samples :=
  ⟨_, _, rfl, C9_one_command_per_sample (some "/db") ["s1_R1.fq"] [] [("s1", "SKB8")]
    "out" "tmp" paramsHuman _ _ rfl⟩

/-! ## Claim C6 -/

theorem collectFiles_fst (ex : String → Bool) (out_dir : String) :
    ∀ (samples : List Sample) (acc : List String × List String),
      (collectFiles ex out_dir samples acc).1 =
        acc.1 ++ samples.flatMap (fun s => (expectedFiles out_dir s).filter ex) := by
  intro samples
  induction samples with
  | nil => intro acc; simp [collectFiles]
  | cons s rest ih =>
    intro acc
    simp only [collectFiles]
    by_cases h1 : ex (pathJoin out_dir (s.sample_name ++ R1SUF)) <;>
      by_cases h2 : ex (pathJoin out_dir (s.sample_name ++ R2SUF)) <;>
      simp [h1, h2, ih, expectedFiles, List.filter_cons]

/-- C6, corrected: the collector's expected filenames are built from the
sample NAME (the source destructures the tuple's second component into a
variable named `rp`), with the fixed R1/R2 suffix pair regardless of the
pairing mode (`fwd_and_rev` is accepted and never read); existing files
are included in traversal order, missing ones are skipped, and the
collector fails exactly when no expected file exists. -/
theorem C6_collector_characterization (ex : String → Bool) (out_dir : String)
    (samples : List Sample) (b : Bool) :
    per_sample_ainfo ex out_dir samples b =
      (if (samples.flatMap (fun s => (expectedFiles out_dir s).filter ex)).isEmpty
       then .error "No sequences left after filtering"
       else .ok [⟨"QC_Trim files", "per_sample_FASTQ",
         samples.flatMap (fun s => (expectedFiles out_dir s).filter ex)⟩]) ∧
    per_sample_ainfo ex out_dir samples b = per_sample_ainfo ex out_dir samples (!b) := by
  constructor
  · have h1 : (collectFiles ex out_dir samples ([], [])).1 =
        samples.flatMap (fun s => (expectedFiles out_dir s).filter ex) := by
      simpa using collectFiles_fst ex out_dir samples ([], [])
    simp only [per_sample_ainfo, h1]
  · rfl

/-- C6 counterexample: for a sample whose run prefix (`rp1`) differs from
its sample name (`SAMP`), the code returns the sample-name-based files
while the claim's collector (run-prefix-based names) finds nothing and
fails — the two disagree. -/
theorem C6_counterexample :
    per_sample_ainfo exSampGz "out" [⟨"rp1", "SAMP", "f.fq", none⟩] true =
      .ok [⟨"QC_Trim files", "per_sample_FASTQ",
        ["out/SAMP.R1.trimmed.filtered.fastq.gz",
         "out/SAMP.R2.trimmed.filtered.fastq.gz"]⟩] ∧
    per_sample_ainfo_claim exSampGz "out" [⟨"rp1", "SAMP", "f.fq", none⟩] true =
      .error "No sequences left after filtering" ∧
    per_sample_ainfo exSampGz "out" [⟨"rp1", "SAMP", "f.fq", none⟩] true ≠
      per_sample_ainfo_claim exSampGz "out" [⟨"rp1", "SAMP", "f.fq", none⟩] true :=
  ⟨by decide, by decide, by decide⟩

/-! ## Claim C8 -/

theorem mrpps_rev_none (idx : List (String × String)) (fwd : List String)
    (samples : List Sample)
    (h : make_read_pairs_per_sample fwd [] idx = .ok samples) :
    ∀ s ∈ samples, s.rev_fp = none := by
  rw [mrpps_nil_rev] at h
  apply pairLoop_rev_none idx _ [] samples ?_ h
  intro p hp
  rw [zipLongest_nil_right] at hp
  obtain ⟨f, _, heq⟩ := List.mem_map.mp hp
  rw [← heq]

/-- C8, corrected: with an empty reverse list every returned sample's
reverse path is indeed absent, but each generated command still carries
TWO input flags: the `-2` flag is emitted with Python's rendering of
`None`, i.e. the command contains the text `" -2 None"`, not exactly one
input flag as the claim states. -/
theorem C8_empty_reverse_two_flags (env : Option String) (fwd : List String)
    (idx : List (String × String)) (out_dir temp_dir : String)
    (params : List (String × String)) (cmds : List String) (samples : List Sample)
    (h : generate_qc_filter_commands env fwd [] idx out_dir temp_dir params =
      .ok (cmds, samples)) :
    (∀ s ∈ samples, s.rev_fp = none) ∧
    ∀ c ∈ cmds, ∃ a b, c = a ++ " -2 " ++ "None" ++ b := by
  obtain ⟨ps, th, hm, _, _, hcmds⟩ := generate_ok_elim h
  have hrevn : ∀ s ∈ samples, s.rev_fp = none := mrpps_rev_none idx fwd samples hm
  refine ⟨hrevn, ?_⟩
  intro c hc
  rw [hcmds] at hc
  obtain ⟨s, hs, heq⟩ := List.mem_map.mp hc
  refine ⟨"bowtie2 " ++ ps ++ " --very-sensitive -1 " ++ s.fwd_fp,
    " | samtools view -f 12 -F 256 -b -o " ++
      pathJoin temp_dir (s.sample_name ++ ".unsorted.bam") ++ ";" ++
    "samtools sort -T " ++ pathJoin temp_dir s.sample_name ++ " -@ " ++ th ++
      " -n -o " ++ pathJoin temp_dir (s.sample_name ++ ".bam") ++ " " ++
      pathJoin temp_dir (s.sample_name ++ ".unsorted.bam") ++ ";" ++
    "bedtools bamtofastq -i " ++ pathJoin temp_dir (s.sample_name ++ ".bam") ++
      " -fq " ++ pathJoin temp_dir (s.sample_name ++ ".R1.trimmed.filtered.fastq") ++
      " -fq2 " ++ pathJoin temp_dir (s.sample_name ++ ".R2.trimmed.filtered.fastq") ++ ";" ++
    "pigz -p " ++ th ++ " -c " ++
      pathJoin temp_dir (s.sample_name ++ ".R1.trimmed.filtered.fastq") ++ " > " ++
      pathJoin out_dir (s.sample_name ++ ".R1.trimmed.filtered.fastq.gz") ++ ";" ++
    "pigz -p " ++ th ++ " -c " ++
      pathJoin temp_dir (s.sample_name ++ ".R2.trimmed.filtered.fastq") ++ " > " ++
      pathJoin out_dir (s.sample_name ++ ".R2.trimmed.filtered.fastq.gz"), ?_⟩
  rw [← heq]
  simp only [buildCommand, hrevn s hs, optStr]
  simp only [String.append_assoc]

set_option maxRecDepth 4096 in
/-- C8 counterexample: a concrete generation with an empty reverse list
whose single command contains the text `" -2 None"` — a second,
degenerate input flag — contradicting "exactly one input-file flag". -/
theorem C8_counterexample :
    generate_qc_filter_commands (some "/db") ["s1_R1.fq"] [] [("s1", "SKB8")]
      "out" "tmp" paramsHuman =
      .ok (["bowtie2 -p 4 -x /db/Human/phix --very-sensitive -1 s1_R1.fq -2 None | samtools view -f 12 -F 256 -b -o tmp/SKB8.unsorted.bam;samtools sort -T tmp/SKB8 -@ 4 -n -o tmp/SKB8.bam tmp/SKB8.unsorted.bam;bedtools bamtofastq -i tmp/SKB8.bam -fq tmp/SKB8.R1.trimmed.filtered.fastq -fq2 tmp/SKB8.R2.trimmed.filtered.fastq;pigz -p 4 -c tmp/SKB8.R1.trimmed.filtered.fastq > out/SKB8.R1.trimmed.filtered.fastq.gz;pigz -p 4 -c tmp/SKB8.R2.trimmed.filtered.fastq > out/SKB8.R2.trimmed.filtered.fastq.gz"],
        [⟨"s1", "SKB8", "s1_R1.fq", none⟩]) ∧
    "bowtie2 -p 4 -x /db/Human/phix --very-sensitive -1 s1_R1.fq -2 None | samtools view -f 12 -F 256 -b -o tmp/SKB8.unsorted.bam;samtools sort -T tmp/SKB8 -@ 4 -n -o tmp/SKB8.bam tmp/SKB8.unsorted.bam;bedtools bamtofastq -i tmp/SKB8.bam -fq tmp/SKB8.R1.trimmed.filtered.fastq -fq2 tmp/SKB8.R2.trimmed.filtered.fastq;pigz -p 4 -c tmp/SKB8.R1.trimmed.filtered.fastq > out/SKB8.R1.trimmed.filtered.fastq.gz;pigz -p 4 -c tmp/SKB8.R2.trimmed.filtered.fastq > out/SKB8.R2.trimmed.filtered.fastq.gz" =
      "bowtie2 -p 4 -x /db/Human/phix --very-sensitive -1 s1_R1.fq" ++ " -2 " ++ "None" ++
        " | samtools view -f 12 -F 256 -b -o tmp/SKB8.unsorted.bam;samtools sort -T tmp/SKB8 -@ 4 -n -o tmp/SKB8.bam tmp/SKB8.unsorted.bam;bedtools bamtofastq -i tmp/SKB8.bam -fq tmp/SKB8.R1.trimmed.filtered.fastq -fq2 tmp/SKB8.R2.trimmed.filtered.fastq;pigz -p 4 -c tmp/SKB8.R1.trimmed.filtered.fastq > out/SKB8.R1.trimmed.filtered.fastq.gz;pigz -p 4 -c tmp/SKB8.R2.trimmed.filtered.fastq > out/SKB8.R2.trimmed.filtered.fastq.gz" :=
  ⟨by decide, by decide⟩

/-- Witness instantiating `C8_empty_reverse_two_flags` on a concrete
successful generation and discharging its hypothesis there. -/
theorem C8_witness :
    ∃ cmds samples,
      generate_qc_filter_commands (some "/db") ["s1_R1.fq"] [] [("s1", "SKB8")]
        "out" "tmp" paramsHuman = .ok (cmds, samples) ∧
      (∀ s ∈ samples, s.rev_fp = none) ∧
      ∀ c ∈ cmds, ∃ a b, c = a ++ " -2 " ++ "None" ++ b :=
  ⟨_, _, rfl, C8_empty_reverse_two_flags (some "/db") ["s1_R1.fq"] [("s1", "SKB8")]
    "out" "tmp" paramsHuman _ _ rfl⟩

/-! ## Claim C5 -/

/-- C5 (bug exhibit): on the exit path where command execution fails
(`return False, None, msg` at line 305) and on the exit path where the
collector raises (line 310), `qc_filter` never reaches
`rmtree(temp_dir)` — the temporary directory is leaked, contradicting the
claim that it is removed on every exit path that follows its creation. -/
theorem C5_temp_dir_leaked :
    ((qc_filter sysAllFail exNone (some "/db") ["s1_R1.fq"] [] [("s1", "SKB8")]
        paramsHuman "out" "tmp").tempRemoved = false ∧
      ∃ m, (qc_filter sysAllFail exNone (some "/db") ["s1_R1.fq"] [] [("s1", "SKB8")]
        paramsHuman "out" "tmp").result = .ok (false, none, m)) ∧
    ((qc_filter sysAllOk exNone (some "/db") ["s1_R1.fq"] [] [("s1", "SKB8")]
        paramsHuman "out" "tmp").tempRemoved = false ∧
      (qc_filter sysAllOk exNone (some "/db") ["s1_R1.fq"] [] [("s1", "SKB8")]
        paramsHuman "out" "tmp").result = .error "No sequences left after filtering") ∧
    (qc_filter sysAllOk exAll (some "/db") ["s1_R1.fq"] [] [("s1", "SKB8")]
        paramsHuman "out" "tmp").tempRemoved = true :=
  ⟨⟨rfl, ⟨_, rfl⟩⟩, ⟨rfl, rfl⟩, rfl⟩

/-! ## Claim C10 -/

theorem run_commands_success_all (sys : String → SysResult) (msg : String)
    (cmds : List String) (h : (run_commands sys msg cmds).2.1 = true) :
    (run_commands sys msg cmds).1.map Prod.snd = cmds :=
  (runGo_success_trace sys msg cmds 0 h).1

/-- C10: on the success path, `qc_filter` hands the full generated command
list to `_run_commands` twice — once under the Step 3 message template and
again under the Step 4 template — so the executed-command trace is the
command list twice over, before artifacts are collected. -/
theorem C10_commands_executed_twice (sys : String → SysResult) (ex : String → Bool)
    (env : Option String) (fwd rev : List String) (idx : List (String × String))
    (params : List (String × String)) (out_dir temp_dir : String)
    (cmds : List String) (samples : List Sample) (ainfo : List ArtifactInfo)
    (hgen : generate_qc_filter_commands env fwd rev idx out_dir temp_dir params =
      .ok (cmds, samples))
    (hrun : (run_commands sys (step3Template cmds.length) cmds).2.1 = true)
    (hain : per_sample_ainfo ex out_dir samples (!rev.isEmpty) = .ok ainfo) :
    qc_filter sys ex env fwd rev idx params out_dir temp_dir =
      ⟨.ok (true, some ainfo, ""), true,
        (run_commands sys (step3Template cmds.length) cmds).1 ++
          (run_commands sys (step4Template cmds.length) cmds).1⟩ ∧
    (qc_filter sys ex env fwd rev idx params out_dir temp_dir).invoked.map Prod.snd =
      cmds ++ cmds := by
  have hrun4 : (run_commands sys (step4Template cmds.length) cmds).2.1 = true := by
    have hind := runGo_result_indep sys cmds (step4Template cmds.length)
      (step3Template cmds.length) 0 0
    show (runCommandsGo sys (step4Template cmds.length) 0 cmds).2.1 = true
    rw [hind]
    exact hrun
  have hq : qc_filter sys ex env fwd rev idx params out_dir temp_dir =
      ⟨.ok (true, some ainfo, ""), true,
        (run_commands sys (step3Template cmds.length) cmds).1 ++
          (run_commands sys (step4Template cmds.length) cmds).1⟩ := by
    unfold qc_filter
    rw [hgen]
    dsimp only
    have hcond : ¬((run_commands sys (step3Template cmds.length) cmds).2.1 = false) := by
      rw [hrun]
      simp
    rw [if_neg hcond, hain]
  refine ⟨hq, ?_⟩
  rw [hq]
  dsimp only
  rw [List.map_append, run_commands_success_all sys _ cmds hrun,
    run_commands_success_all sys _ cmds hrun4]

/-- Witness instantiating `C10_commands_executed_twice` on a concrete
success-path run and discharging its hypotheses there. -/
theorem C10_witness :
    ∃ cmds samples ainfo,
      generate_qc_filter_commands (some "/db") ["s1_R1.fq"] [] [("s1", "SKB8")]
        "out" "tmp" paramsHuman = .ok (cmds, samples) ∧
      (run_commands sysAllOk (step3Template cmds.length) cmds).2.1 = true ∧
      per_sample_ainfo exAll "out" samples (!([] : List String).isEmpty) = .ok ainfo ∧
      (qc_filter sysAllOk exAll (some "/db") ["s1_R1.fq"] [] [("s1", "SKB8")]
        paramsHuman "out" "tmp").invoked.map Prod.snd = cmds ++ cmds :=
  ⟨_, _, _, rfl, rfl, rfl,
    (C10_commands_executed_twice sysAllOk exAll (some "/db") ["s1_R1.fq"] []
      [("s1", "SKB8")] paramsHuman "out" "tmp" _ _ _ rfl rfl rfl).2⟩

end QcFilter
